import Mathlib

/-!
Shallow embedding of `src/src/tj_log.c` (tj-tools logging facility).

Channels are mutable heap nodes linked by pointers, and the claims hinge on
pointer identity (removal compares by identity; the registry head may dangle),
so the state is modelled explicitly: a heap mapping addresses to channel
records, the global head pointer `tj_log_channelStack`, and the global
`tj_log_atexit` flag.  Pointers are `Option Addr` (`none` = NULL).  Reading
through an address that is not in the heap models a dereference of a dangling
or invalid pointer, and the operation returns `none` (a memory fault); the C
code has undefined behaviour there.

External collaborators are modelled at their contract:
  * `tj_buffer`: per-call message buffer; creation success is the parameter
    `bufferOk` and the rendered result of `tj_buffer_vaprintf` is the
    parameter `msg` (the claims only use that the same rendered string is
    handed to every channel, and the create/release lifecycle).
  * `tj_error`: an error object is its renderable message, so `tj_error` is
    `String` and `tj_error_getMessage` is the identity.
  * Channel log / finalize function pointers are opaque `Nat` identifiers;
    invoking them is recorded in a trace rather than executed.
-/

/-- Heap addresses of `tj_log_outchannel` nodes. -/
abbrev Addr := Nat

/-- `tj_log_level` from tj_log.h: the five levels in declaration order. -/
inductive tj_log_level where
  | TJ_LOG_LEVEL_VERBOSE
  | TJ_LOG_LEVEL_LOGIC
  | TJ_LOG_LEVEL_COMPONENT
  | TJ_LOG_LEVEL_CRITICAL
  | TJ_LOG_LEVEL_OUTPUT
deriving Repr, DecidableEq

open tj_log_level

/-- `tj_log_level_labels` (tj_log.c lines 38-45): label array indexed by level. -/
def tj_log_level_labels : tj_log_level → String
  | TJ_LOG_LEVEL_VERBOSE => "VERBOSE"
  | TJ_LOG_LEVEL_LOGIC => "LOGIC"
  | TJ_LOG_LEVEL_COMPONENT => "COMPONENT"
  | TJ_LOG_LEVEL_CRITICAL => "CRITICAL"
  | TJ_LOG_LEVEL_OUTPUT => "OUTPUT"

/-- `tj_error` collaborator: modelled by its renderable message. -/
abbrev tj_error := String

/-- `tj_error_getMessage`: yields the error object's message. -/
def tj_error_getMessage (e : tj_error) : String := e

/-- `struct tj_log_outchannel` (tj_log.c lines 47-58).
`m_allocated` is the heap-ownership flag, `m_data` the opaque data handle,
`log` / `finalize` the function pointers (`finalize = none` models a NULL
finalize pointer), `m_next` the chain link. -/
structure tj_log_outchannel where
  m_allocated : Bool
  m_data : Nat
  log : Nat
  finalize : Option Nat
  m_next : Option Addr
deriving Repr, DecidableEq

/-- The channel heap: an association list from addresses to channel records
(first binding wins, as in memory each address has one object). -/
abbrev Heap := List (Addr × tj_log_outchannel)

/-- Read the channel object at address `a` (`none` = dangling/invalid pointer). -/
def lookupChan : Heap → Addr → Option tj_log_outchannel
  | [], _ => none
  | (b, c) :: t, a => if b = a then some c else lookupChan t a

/-- Overwrite the channel object stored at address `a` (first binding). -/
def updateChan : Heap → Addr → tj_log_outchannel → Heap
  | [], _, _ => []
  | (b, c) :: t, a, c' => if b = a then (a, c') :: t else (b, c) :: updateChan t a c'

/-- `free` of the node at address `a`: the address leaves the heap. -/
def freeChan : Heap → Addr → Heap
  | [], _ => []
  | (b, c) :: t, a => if b = a then t else (b, c) :: freeChan t a

/-- The facility's global state: the heap of channel nodes, the registry head
`tj_log_channelStack` (tj_log.c line 108), the `tj_log_atexit` flag
(line 111), and `atexitScheduled`, counting how many times
`atexit(&tj_log_finalize)` has been invoked (line 159). -/
structure LogState where
  heap : Heap
  channelStack : Option Addr
  atexit : Bool
  atexitScheduled : Nat
deriving Repr, DecidableEq

/-- `tj_log_outchannel_finalize` (tj_log.c lines 138-147): invoke the
channel's finalize function if set, then `free` the node if `m_allocated`.
Returns the new state and the trace of channel addresses on which
`tj_log_outchannel_finalize` ran; `none` models dereferencing a dangling
pointer. -/
def tj_log_outchannel_finalize (s : LogState) (x : Addr) :
    Option (LogState × List Addr) :=
  match lookupChan s.heap x with
  | none => none
  | some c =>
    let h := if c.m_allocated then freeChan s.heap x else s.heap
    some ({ s with heap := h }, [x])

/-- `tj_log_addOutChannel` (tj_log.c lines 152-165): push `out` on the head of
the stack (`out->m_next = tj_log_channelStack; tj_log_channelStack = out`),
then if `tj_log_atexit` is clear, call `atexit(&tj_log_finalize)` and set it.
Returns the new state and the C return value `0`. -/
def tj_log_addOutChannel (s : LogState) (out : Addr) :
    Option (LogState × Int) :=
  match lookupChan s.heap out with
  | none => none
  | some c =>
    let s1 : LogState :=
      { s with heap := updateChan s.heap out { c with m_next := s.channelStack },
               channelStack := some out }
    let s2 : LogState :=
      if !s1.atexit then
        { s1 with atexit := true, atexitScheduled := s1.atexitScheduled + 1 }
      else s1
    some (s2, 0)

/-- The scan loop of `tj_log_removeOutChannel` (tj_log.c lines 174-177):
`while (top != 0 && top != out) { prev = top; top = top->m_next; }`.
Returns the final `(top, prev)` pair; fuelled because a corrupt (cyclic) heap
would loop forever. -/
def removeScan (h : Heap) (top : Option Addr) (out : Addr) (prev : Option Addr) :
    Nat → Option (Option Addr × Option Addr)
  | 0 => none
  | fuel + 1 =>
    match top with
    | none => some (none, prev)
    | some t =>
      if t = out then some (some t, prev)
      else
        match lookupChan h t with
        | none => none
        | some c => removeScan h c.m_next out (some t) fuel

/-- `tj_log_removeOutChannel` (tj_log.c lines 167-188): scan for `out`; if the
scan ends at NULL, return (no-op); otherwise, when there is a predecessor, set
`prev->m_next = top->m_next`, and finalize `out`.  Note the code never updates
`tj_log_channelStack` itself.  Returns the new state and the finalize trace. -/
def tj_log_removeOutChannel (s : LogState) (out : Addr) :
    Option (LogState × List Addr) :=
  match removeScan s.heap s.channelStack out none (s.heap.length + 1) with
  | none => none
  | some (none, _) => some (s, [])
  | some (some _, prev) =>
    match prev with
    | none => tj_log_outchannel_finalize s out
    | some p =>
      match lookupChan s.heap out, lookupChan s.heap p with
      | some oc, some pc =>
        tj_log_outchannel_finalize
          { s with heap := updateChan s.heap p { pc with m_next := oc.m_next } }
          out
      | _, _ => none

/-- The loop of `tj_log_finalize` (tj_log.c lines 222-228): walk from `out`,
saving `next = out->m_next` before finalizing each node. -/
def finalizeLoop (s : LogState) (out : Option Addr) :
    Nat → Option (LogState × List Addr)
  | 0 => none
  | fuel + 1 =>
    match out with
    | none => some (s, [])
    | some a =>
      match lookupChan s.heap a with
      | none => none
      | some c =>
        match tj_log_outchannel_finalize s a with
        | none => none
        | some (s1, tr1) =>
          match finalizeLoop s1 c.m_next fuel with
          | none => none
          | some (s2, tr2) => some (s2, tr1 ++ tr2)

/-- `tj_log_finalize` (tj_log.c lines 219-232): finalize every node reachable
from `tj_log_channelStack`, then set `tj_log_atexit = 0`.  Note the code does
not assign `tj_log_channelStack`. -/
def tj_log_finalize (s : LogState) : Option (LogState × List Addr) :=
  match finalizeLoop s s.channelStack (s.heap.length + 1) with
  | none => none
  | some (s1, tr) => some ({ s1 with atexit := false }, tr)

/-- `tj_log_outchannel_create` (tj_log.c lines 116-136).  `mallocOk` models
whether `malloc` succeeds and `newAddr` the fresh address it would return.  On
failure the function logs a critical line through `TJ_LOG_CRITICAL` (which,
per `tj_log_log`, never touches the registry state) and returns NULL; on
success the new node has `m_allocated = 1`, the given fields, `m_next = 0`. -/
def tj_log_outchannel_create (s : LogState) (mallocOk : Bool) (newAddr : Addr)
    (data : Nat) (log : Nat) (fin : Option Nat) : LogState × Option Addr :=
  if mallocOk then
    ({ s with heap :=
        (newAddr,
          { m_allocated := true, m_data := data, log := log,
            finalize := fin, m_next := none }) :: s.heap },
      some newAddr)
  else (s, none)

/-- `tj_log_setData` (tj_log.c lines 270-272): `out->m_data = data`. -/
def tj_log_setData (s : LogState) (out : Addr) (data : Nat) : Option LogState :=
  match lookupChan s.heap out with
  | none => none
  | some c => some { s with heap := updateChan s.heap out { c with m_data := data } }

/-- One invocation `out->log(out->m_data, level, component, file, func, line,
error, tj_buffer_getAsString(msg))` recorded during dispatch
(tj_log.c lines 256-257). -/
structure SinkCall where
  chanAddr : Addr
  logFn : Nat
  data : Nat
  level : tj_log_level
  component : String
  file : String
  func : String
  line : Int
  error : Option tj_error
  msg : String
deriving Repr, DecidableEq

/-- The dispatch loop of `tj_log_log` (tj_log.c lines 254-259): walk the chain
from `out`, invoking each channel's log function with the same arguments and
the same rendered string.  Returns the trace of invocations in order. -/
def dispatchLoop (h : Heap) (out : Option Addr) (level : tj_log_level)
    (component file func : String) (line : Int) (error : Option tj_error)
    (msg : String) : Nat → Option (List SinkCall)
  | 0 => none
  | fuel + 1 =>
    match out with
    | none => some []
    | some a =>
      match lookupChan h a with
      | none => none
      | some c =>
        match dispatchLoop h c.m_next level component file func line error msg fuel with
        | none => none
        | some rest =>
          some ({ chanAddr := a, logFn := c.log, data := c.m_data,
                  level := level, component := component, file := file,
                  func := func, line := line, error := error, msg := msg } :: rest)

/-- Message-buffer lifecycle of one `tj_log_log` call: whether
`tj_buffer_create(128)` produced a buffer and whether `tj_buffer_finalize`
released it before return. -/
structure BufferTrace where
  bufferCreated : Bool
  bufferReleased : Bool
deriving Repr, DecidableEq

/-- `tj_log_log` (tj_log.c lines 237-268).  `bufferOk` models whether
`tj_buffer_create(128)` succeeds and `msg` the string that
`tj_buffer_vaprintf` renders from the format and the variadic arguments.  On
buffer failure the code emits `TJ_ERROR` (external, no registry effect) and
jumps to `done`, skipping dispatch; `done` releases the buffer only if it was
created.  The globals are never assigned, so the state comes back unchanged.
Returns `(state, sink-call trace, buffer lifecycle)`. -/
def tj_log_log (s : LogState) (bufferOk : Bool) (level : tj_log_level)
    (component file func : String) (line : Int) (error : Option tj_error)
    (msg : String) : Option (LogState × List SinkCall × BufferTrace) :=
  if bufferOk then
    match dispatchLoop s.heap s.channelStack level component file func line error msg
        (s.heap.length + 1) with
    | none => none
    | some calls =>
      some (s, calls, { bufferCreated := true, bufferReleased := true })
  else
    some (s, [], { bufferCreated := false, bufferReleased := false })

/-- `tj_log_log` iterated over a sequence of dispatches: each element of
`msgs` is one call's `(bufferOk, rendered message)`.  Returns the final state
and the per-call traces in order. -/
def tj_log_logN (s : LogState) (level : tj_log_level)
    (component file func : String) (line : Int) (error : Option tj_error) :
    List (Bool × String) → Option (LogState × List (List SinkCall))
  | [] => some (s, [])
  | (ok, m) :: rest =>
    match tj_log_log s ok level component file func line error m with
    | none => none
    | some (s1, calls, _) =>
      match tj_log_logN s1 level component file func line error rest with
      | none => none
      | some (s2, traces) => some (s2, calls :: traces)

/-- `tj_log_fprintfLog` (tj_log.c lines 276-310), as the text written to the
output stream.  `date` is the injected `strftime`-rendered local timestamp
(the stream choice between `data` and `TJ_LOG_STREAM` does not affect the
text).  Level `OUTPUT`: `"<date> <msg>\n"`; any level other than `CRITICAL`:
`"<date> <component> <msg>\n"`; `CRITICAL`:
`"[<label>] <date> <component> <file>:<func>:<line>: <msg>\n"`.  When `error`
is non-NULL, one more line `"<error message>\n"` follows. -/
def tj_log_fprintfLog (date : String) (level : tj_log_level)
    (component file func : String) (line : Int) (error : Option tj_error)
    (msg : String) : String :=
  (if level = TJ_LOG_LEVEL_OUTPUT then
    date ++ " " ++ msg ++ "\n"
  else if level ≠ TJ_LOG_LEVEL_CRITICAL then
    date ++ " " ++ component ++ " " ++ msg ++ "\n"
  else
    "[" ++ tj_log_level_labels level ++ "] " ++ date ++ " " ++ component ++ " "
      ++ file ++ ":" ++ func ++ ":" ++ toString line ++ ": " ++ msg ++ "\n")
  ++ (match error with
      | none => ""
      | some e => tj_error_getMessage e ++ "\n")

/-- `android_LogPriority` values used by `tj_log_logcatLog`. -/
inductive AndroidLogPriority where
  | ANDROID_LOG_VERBOSE
  | ANDROID_LOG_DEBUG
  | ANDROID_LOG_INFO
  | ANDROID_LOG_ERROR
deriving Repr, DecidableEq

open AndroidLogPriority

/-- The level-to-priority switch of `tj_log_logcatLog` (tj_log.c lines 330-355). -/
def logcatPriority : tj_log_level → AndroidLogPriority
  | TJ_LOG_LEVEL_VERBOSE => ANDROID_LOG_VERBOSE
  | TJ_LOG_LEVEL_LOGIC => ANDROID_LOG_DEBUG
  | TJ_LOG_LEVEL_COMPONENT => ANDROID_LOG_INFO
  | TJ_LOG_LEVEL_CRITICAL => ANDROID_LOG_ERROR
  | TJ_LOG_LEVEL_OUTPUT => ANDROID_LOG_INFO

/-- `tj_log_logcatLog` (tj_log.c lines 323-369), as the sequence of
`__android_log_print(priority, tag, ...)` writes: `"<msg>"` for non-CRITICAL
levels, `"<file>:<func>:<line>: <msg>"` for CRITICAL, then the error's message
as one more write when `error` is non-NULL. -/
def tj_log_logcatLog (level : tj_log_level) (component file func : String)
    (line : Int) (error : Option tj_error) (msg : String) :
    List (AndroidLogPriority × String × String) :=
  let pri := logcatPriority level
  (if level ≠ TJ_LOG_LEVEL_CRITICAL then
    [(pri, component, msg)]
  else
    [(pri, component, file ++ ":" ++ func ++ ":" ++ toString line ++ ": " ++ msg)])
  ++ (match error with
      | none => []
      | some e => [(pri, component, tj_error_getMessage e)])

/-!  Chain representation: the registry invariant that the pointer `head`
denotes the NULL-terminated list of nodes `cs` inside heap `h`. -/

/-- `ChainRep h head cs`: starting at `head` and following `m_next`, the chain
visits exactly the nodes `cs` (address paired with stored record) and ends at
NULL. -/
inductive ChainRep (h : Heap) : Option Addr → List (Addr × tj_log_outchannel) → Prop where
  | nil : ChainRep h none []
  | cons {a : Addr} {c : tj_log_outchannel} {cs : List (Addr × tj_log_outchannel)} :
      lookupChan h a = some c → ChainRep h c.m_next cs →
      ChainRep h (some a) ((a, c) :: cs)

/-- The `SinkCall` produced when dispatch reaches the node `p`. -/
def mkSinkCall (p : Addr × tj_log_outchannel) (level : tj_log_level)
    (component file func : String) (line : Int) (error : Option tj_error)
    (msg : String) : SinkCall :=
  { chanAddr := p.1, logFn := p.2.log, data := p.2.m_data, level := level,
    component := component, file := file, func := func, line := line,
    error := error, msg := msg }

lemma dispatchLoop_eq {h : Heap} {head : Option Addr}
    {cs : List (Addr × tj_log_outchannel)} (rep : ChainRep h head cs) :
    ∀ {fuel : Nat}, cs.length < fuel →
    ∀ (level : tj_log_level) (component file func : String) (line : Int)
      (error : Option tj_error) (msg : String),
    dispatchLoop h head level component file func line error msg fuel =
      some (cs.map fun p => mkSinkCall p level component file func line error msg) := by
  induction rep with
  | nil =>
    intro fuel hf level component file func line error msg
    match fuel, hf with
    | fuel + 1, _ => simp [dispatchLoop]
  | cons hlook _hrest ih =>
    intro fuel hf level component file func line error msg
    match fuel, hf with
    | fuel + 1, hf =>
      have hlt := Nat.lt_of_succ_lt_succ hf
      simp [dispatchLoop, hlook, ih hlt, mkSinkCall]

lemma tj_log_log_true_eq {s : LogState} {cs : List (Addr × tj_log_outchannel)}
    (rep : ChainRep s.heap s.channelStack cs) (hlen : cs.length ≤ s.heap.length)
    (level : tj_log_level) (component file func : String) (line : Int)
    (error : Option tj_error) (msg : String) :
    tj_log_log s true level component file func line error msg =
      some (s, cs.map (fun p => mkSinkCall p level component file func line error msg),
        { bufferCreated := true, bufferReleased := true }) := by
  have hd := dispatchLoop_eq rep (Nat.lt_succ_of_le hlen)
    level component file func line error msg
  simp [tj_log_log, hd]

lemma tj_log_logN_eq {s : LogState} {cs : List (Addr × tj_log_outchannel)}
    (rep : ChainRep s.heap s.channelStack cs) (hlen : cs.length ≤ s.heap.length)
    (level : tj_log_level) (component file func : String) (line : Int)
    (error : Option tj_error) :
    ∀ msgs : List String,
    tj_log_logN s level component file func line error (msgs.map fun m => (true, m)) =
      some (s, msgs.map fun m =>
        cs.map fun p => mkSinkCall p level component file func line error m)
  | [] => by simp [tj_log_logN]
  | m :: rest => by
    have h1 := tj_log_log_true_eq rep hlen level component file func line error m
    have h2 := tj_log_logN_eq rep hlen level component file func line error rest
    simp [tj_log_logN, h1, h2]

lemma removeScan_not_found {h : Heap} {head : Option Addr}
    {cs : List (Addr × tj_log_outchannel)} (rep : ChainRep h head cs)
    {out : Addr} (hout : out ∉ cs.map Prod.fst) :
    ∀ {fuel : Nat}, cs.length < fuel → ∀ prev0 : Option Addr,
    ∃ prevEnd, removeScan h head out prev0 fuel = some (none, prevEnd) := by
  induction rep with
  | nil =>
    intro fuel hf prev0
    match fuel, hf with
    | fuel + 1, _ => exact ⟨prev0, by simp [removeScan]⟩
  | @cons a c cs' hlook _hrest ih =>
    intro fuel hf prev0
    match fuel, hf with
    | fuel + 1, hf =>
      have hne : a ≠ out := by
        intro hcontra
        exact hout (by simp [hcontra])
      have hout' : out ∉ cs'.map Prod.fst := by
        intro hmem
        exact hout (by simp [hmem])
      have hlt := Nat.lt_of_succ_lt_succ hf
      obtain ⟨prevEnd, hscan⟩ := ih hout' hlt (some a)
      refine ⟨prevEnd, ?_⟩
      simp [removeScan, hne, hlook, hscan]

lemma lookupChan_updateChan_self {h : Heap} {a : Addr} {c c' : tj_log_outchannel}
    (hl : lookupChan h a = some c) :
    lookupChan (updateChan h a c') a = some c' := by
  induction h with
  | nil => simp [lookupChan] at hl
  | cons q t ih =>
    obtain ⟨b, cc⟩ := q
    by_cases hb : b = a
    · subst hb
      simp [updateChan, lookupChan]
    · simp [updateChan, lookupChan, hb] at hl ⊢
      exact ih hl

lemma countP_chain_once {cs : List (Addr × tj_log_outchannel)}
    (hnodup : (cs.map Prod.fst).Nodup) {p : Addr × tj_log_outchannel} (hp : p ∈ cs)
    (level : tj_log_level) (component file func : String) (line : Int)
    (error : Option tj_error) (m : String) :
    ((cs.map fun q => mkSinkCall q level component file func line error m).countP
      fun sc => sc.chanAddr == p.1) = 1 := by
  have hmem : p.1 ∈ cs.map Prod.fst := List.mem_map.mpr ⟨p, hp, rfl⟩
  have h1 : ((cs.map fun q => mkSinkCall q level component file func line error m).countP
      fun sc => sc.chanAddr == p.1) = (cs.map Prod.fst).countP fun x => x == p.1 := by
    rw [List.countP_map, List.countP_map]
    rfl
  rw [h1, ← List.count_eq_countP]
  exact List.count_eq_one_of_mem hnodup hmem

lemma countP_traces {cs : List (Addr × tj_log_outchannel)}
    (hnodup : (cs.map Prod.fst).Nodup) {p : Addr × tj_log_outchannel} (hp : p ∈ cs)
    (level : tj_log_level) (component file func : String) (line : Int)
    (error : Option tj_error) :
    ∀ msgs : List String,
    ((msgs.map fun m =>
        cs.map fun q => mkSinkCall q level component file func line error m).flatten.countP
      fun sc => sc.chanAddr == p.1) = msgs.length
  | [] => by simp
  | m :: rest => by
    have h1 := countP_chain_once hnodup hp level component file func line error m
    have h2 := countP_traces hnodup hp level component file func line error rest
    simp [List.countP_append, h1, h2, Nat.add_comm]

/-!  Concrete states used by the counterexamples and witnesses. -/

/-- A statically-allocated channel record (like `tj_log_fprintfChannel`,
tj_log.c lines 79-86: ownership flag clear, finalize set). -/
def staticChan : tj_log_outchannel :=
  { m_allocated := false, m_data := 0, log := 10, finalize := some 20, m_next := none }

/-- A heap-allocated channel record as `tj_log_outchannel_create` builds it. -/
def allocChan : tj_log_outchannel :=
  { m_allocated := true, m_data := 6, log := 11, finalize := none, m_next := none }

/-- Registry with no channels and the exit hook unarmed. -/
def emptyRegState : LogState :=
  { heap := [], channelStack := none, atexit := false, atexitScheduled := 0 }

/-- Registry whose whole chain is one heap-allocated channel at address 1. -/
def allocHeadState : LogState :=
  { heap := [(1, { allocChan with m_data := 0 })], channelStack := some 1,
    atexit := true, atexitScheduled := 1 }

/-- Registry whose whole chain is one static channel at address 1. -/
def staticHeadState : LogState :=
  { heap := [(1, staticChan)], channelStack := some 1,
    atexit := true, atexitScheduled := 1 }

/-- The static one-channel registry after one `tj_log_finalize`. -/
def staticTornState : LogState :=
  { heap := [(1, staticChan)], channelStack := some 1,
    atexit := false, atexitScheduled := 1 }

/-- Chain of two channels: address 2 (heap-allocated, head) links to address 1
(static, tail). -/
def chanB : tj_log_outchannel := { allocChan with m_next := some 1 }

/-- Registry holding the two-channel chain `2 → 1`. -/
def twoChanState : LogState :=
  { heap := [(1, staticChan), (2, chanB)], channelStack := some 2,
    atexit := true, atexitScheduled := 1 }

/-- The node list of `twoChanState`'s chain, head first. -/
def twoChain : List (Addr × tj_log_outchannel) := [(2, chanB), (1, staticChan)]

/-- With a NULL error pointer, `tj_log_fprintfLog` is exactly its level-chosen
main line (the error tail is empty). -/
lemma fprintfLog_none_eq (date : String) (level : tj_log_level)
    (component file func : String) (line : Int) (msg : String) :
    tj_log_fprintfLog date level component file func line none msg =
      (if level = TJ_LOG_LEVEL_OUTPUT then
        date ++ " " ++ msg ++ "\n"
      else if level ≠ TJ_LOG_LEVEL_CRITICAL then
        date ++ " " ++ component ++ " " ++ msg ++ "\n"
      else
        "[" ++ tj_log_level_labels level ++ "] " ++ date ++ " " ++ component ++ " "
          ++ file ++ ":" ++ func ++ ":" ++ toString line ++ ": " ++ msg ++ "\n") :=
  String.append_empty _

/-- With a NULL error pointer, `tj_log_logcatLog` is exactly its level-chosen
main write. -/
lemma logcatLog_none_eq (level : tj_log_level) (component file func : String)
    (line : Int) (msg : String) :
    tj_log_logcatLog level component file func line none msg =
      (if level ≠ TJ_LOG_LEVEL_CRITICAL then
        [(logcatPriority level, component, msg)]
      else
        [(logcatPriority level, component,
          file ++ ":" ++ func ++ ":" ++ toString line ++ ": " ++ msg)]) :=
  List.append_nil _

/-- Result of `tj_log_addOutChannel` on a valid channel pointer: the channel's
link is set to the old head, the head to the channel, and the exit hook is
armed when it was not already. -/
lemma addOutChannel_eq {s : LogState} {out : Addr} {c : tj_log_outchannel}
    (hl : lookupChan s.heap out = some c) :
    tj_log_addOutChannel s out =
      some (if s.atexit then
              { s with heap := updateChan s.heap out { c with m_next := s.channelStack },
                       channelStack := some out }
            else
              { s with heap := updateChan s.heap out { c with m_next := s.channelStack },
                       channelStack := some out, atexit := true,
                       atexitScheduled := s.atexitScheduled + 1 }, 0) := by
  unfold tj_log_addOutChannel
  rw [hl]
  cases hA : s.atexit <;> simp [hA]

/-!  The claims. -/

/-- C1 (code bug): the claim says `tj_log_removeOutChannel` unlinks a
registered channel — updating the registry head when the channel is first —
and that afterwards the channel is unreachable from the head.  The code
(tj_log.c lines 179-185) only repairs `prev->m_next` and never assigns
`tj_log_channelStack`, so removing the head channel finalizes (and, when
heap-owned, frees) it while the head still points at it.  Concretely: in
`allocHeadState` the single heap-owned channel at address 1 is the head;
after removing it the finalize trace is `[1]`, yet `channelStack` is still
`some 1` although address 1 has been freed (dangling registry head). -/
theorem removeOutChannel_head_stays_reachable :
    (tj_log_removeOutChannel allocHeadState 1).map (fun r => r.2) = some [1] ∧
    (tj_log_removeOutChannel allocHeadState 1).map (fun r => r.1.channelStack) =
      some (some 1) ∧
    (tj_log_removeOutChannel allocHeadState 1).map (fun r => lookupChan r.1.heap 1) =
      some none := by
  decide

/-- C2 (code bug): the claim says `tj_log_finalize` leaves the registry head
empty so that a second consecutive call is a no-op that finalizes nothing.
The code (tj_log.c lines 219-232) resets `tj_log_atexit` but never assigns
`tj_log_channelStack`.  Concretely: finalizing `allocHeadState` finalizes and
frees channel 1 and clears the flag, yet the head still reads `some 1`, and a
second call dereferences the freed node (a fault, modelled as `none`).  With
the static channel of `staticHeadState` the second call instead re-finalizes
channel 1 (trace `[1]` again) — not a no-op either way. -/
theorem finalize_keeps_head_second_call_not_noop :
    (tj_log_finalize allocHeadState).map (fun r => r.2) = some [1] ∧
    (tj_log_finalize allocHeadState).map (fun r => r.1.atexit) = some false ∧
    (tj_log_finalize allocHeadState).map (fun r => r.1.channelStack) = some (some 1) ∧
    (tj_log_finalize allocHeadState).bind (fun r => tj_log_finalize r.1) = none ∧
    tj_log_finalize staticHeadState = some (staticTornState, [1]) ∧
    tj_log_finalize staticTornState = some (staticTornState, [1]) := by
  decide

/-- C3: dispatching a sequence of successfully-buffered messages through a
registry whose chain is `cs` leaves the state unchanged and produces, for
each message, one invocation of every chained channel's log function in chain
order (head first), each carrying that call's rendered string; consequently
every registered channel is invoked exactly once per message, i.e. exactly
`msgs.length` times in total. -/
theorem log_dispatch_chain_order_each_channel_once
    (s : LogState) (cs : List (Addr × tj_log_outchannel))
    (rep : ChainRep s.heap s.channelStack cs)
    (hlen : cs.length ≤ s.heap.length)
    (hnodup : (cs.map Prod.fst).Nodup)
    (level : tj_log_level) (component file func : String) (line : Int)
    (error : Option tj_error) (msgs : List String) :
    tj_log_logN s level component file func line error (msgs.map fun m => (true, m)) =
      some (s, msgs.map fun m =>
        cs.map fun p => mkSinkCall p level component file func line error m) ∧
    ∀ p ∈ cs,
      ((msgs.map fun m =>
          cs.map fun q => mkSinkCall q level component file func line error m).flatten.countP
        fun sc => sc.chanAddr == p.1) = msgs.length := by
  refine ⟨tj_log_logN_eq rep hlen level component file func line error msgs, ?_⟩
  intro p hp
  exact countP_traces hnodup hp level component file func line error msgs

/-- Witness for C3 at the two-channel registry `twoChanState` and two
messages. -/
theorem log_dispatch_chain_order_each_channel_once_witness :
    ChainRep twoChanState.heap twoChanState.channelStack twoChain ∧
    twoChain.length ≤ twoChanState.heap.length ∧
    (twoChain.map Prod.fst).Nodup ∧
    (tj_log_logN twoChanState TJ_LOG_LEVEL_LOGIC "c" "a.c" "f" 7 none
        (["m1", "m2"].map fun m => (true, m)) =
      some (twoChanState, ["m1", "m2"].map fun m =>
        twoChain.map fun p => mkSinkCall p TJ_LOG_LEVEL_LOGIC "c" "a.c" "f" 7 none m) ∧
    ∀ p ∈ twoChain,
      ((["m1", "m2"].map fun m =>
          twoChain.map fun q =>
            mkSinkCall q TJ_LOG_LEVEL_LOGIC "c" "a.c" "f" 7 none m).flatten.countP
        fun sc => sc.chanAddr == p.1) = (["m1", "m2"] : List String).length) := by
  have rep : ChainRep twoChanState.heap twoChanState.channelStack twoChain :=
    ChainRep.cons rfl (ChainRep.cons rfl ChainRep.nil)
  exact ⟨rep, by decide, by decide,
    log_dispatch_chain_order_each_channel_once twoChanState twoChain rep
      (by decide) (by decide) TJ_LOG_LEVEL_LOGIC "c" "a.c" "f" 7 none ["m1", "m2"]⟩

/-- C4: when `tj_buffer_create` fails inside `tj_log_log`, the dispatch is
abandoned (no sink call, state unchanged, no buffer created); and on every
exit path, a buffer that was created is released before returning. -/
theorem log_buffer_failure_aborts_and_releases
    (s : LogState) (ok : Bool) (level : tj_log_level)
    (component file func : String) (line : Int) (error : Option tj_error)
    (msg : String) (r : LogState × List SinkCall × BufferTrace)
    (h : tj_log_log s ok level component file func line error msg = some r) :
    (ok = false →
      r = (s, [], { bufferCreated := false, bufferReleased := false })) ∧
    (r.2.2.bufferCreated = true → r.2.2.bufferReleased = true) := by
  cases ok with
  | false =>
    have h' : r = (s, [], { bufferCreated := false, bufferReleased := false }) :=
      (Option.some.inj h).symm
    subst h'
    exact ⟨fun _ => rfl, fun hc => by simp at hc⟩
  | true =>
    unfold tj_log_log at h
    simp only [if_true] at h
    cases hd : dispatchLoop s.heap s.channelStack level component file func line error msg
        (s.heap.length + 1) with
    | none => rw [hd] at h; cases h
    | some calls =>
      rw [hd] at h
      have h' : r = (s, calls, { bufferCreated := true, bufferReleased := true }) :=
        (Option.some.inj h).symm
      subst h'
      exact ⟨fun hfalse => by simp at hfalse, fun _ => rfl⟩

/-- Witness for C4 with a failing buffer at the empty registry. -/
theorem log_buffer_failure_aborts_and_releases_witness :
    tj_log_log emptyRegState false TJ_LOG_LEVEL_LOGIC "c" "a.c" "f" 7 none "m" =
      some (emptyRegState, [], { bufferCreated := false, bufferReleased := false }) ∧
    ((false = false →
      ((emptyRegState, [], { bufferCreated := false, bufferReleased := false }) :
          LogState × List SinkCall × BufferTrace) =
        (emptyRegState, [], { bufferCreated := false, bufferReleased := false })) ∧
     (false = true → false = true)) :=
  ⟨rfl, log_buffer_failure_aborts_and_releases emptyRegState false TJ_LOG_LEVEL_LOGIC
    "c" "a.c" "f" 7 none "m" _ rfl⟩

/-- C5: the exit-hook flag is a one-shot state machine.  An Add with the flag
clear performs the `atexit` registration (the scheduled count rises by one)
and sets the flag; an Add with the flag set schedules nothing more;
`tj_log_finalize` clears the flag, so the next Add after a manual teardown
re-arms the hook exactly once. -/
theorem exit_hook_one_shot :
    (∀ (s : LogState) (a : Addr) (r : LogState × Int),
        tj_log_addOutChannel s a = some r → s.atexit = false →
        r.1.atexit = true ∧ r.1.atexitScheduled = s.atexitScheduled + 1) ∧
    (∀ (s : LogState) (a : Addr) (r : LogState × Int),
        tj_log_addOutChannel s a = some r → s.atexit = true →
        r.1.atexit = true ∧ r.1.atexitScheduled = s.atexitScheduled) ∧
    (∀ (s : LogState) (r : LogState × List Addr),
        tj_log_finalize s = some r → r.1.atexit = false) := by
  refine ⟨?_, ?_, ?_⟩
  · intro s a r h hfl
    cases hl : lookupChan s.heap a with
    | none => simp [tj_log_addOutChannel, hl] at h
    | some c =>
      rw [addOutChannel_eq hl, hfl] at h
      have h' : r = _ := (Option.some.inj h).symm
      subst h'
      simp
  · intro s a r h hfl
    cases hl : lookupChan s.heap a with
    | none => simp [tj_log_addOutChannel, hl] at h
    | some c =>
      rw [addOutChannel_eq hl, hfl] at h
      have h' : r = _ := (Option.some.inj h).symm
      subst h'
      simp [hfl]
  · intro s r h
    unfold tj_log_finalize at h
    cases hf : finalizeLoop s s.channelStack (s.heap.length + 1) with
    | none => rw [hf] at h; cases h
    | some pr =>
      rw [hf] at h
      have h' : r = _ := (Option.some.inj h).symm
      subst h'
      rfl

/-- Witness for C5: arming on a first Add from the unarmed one-channel state,
no re-arming on a second Add, and the flag cleared by a teardown. -/
theorem exit_hook_one_shot_witness :
    tj_log_addOutChannel
        { heap := [(1, staticChan)], channelStack := none,
          atexit := false, atexitScheduled := 0 } 1 =
      some ({ heap := [(1, staticChan)], channelStack := some 1,
              atexit := true, atexitScheduled := 1 }, 0) ∧
    ((true : Bool) = true ∧ (1 : Nat) = 0 + 1) ∧
    ((true : Bool) = true ∧ (1 : Nat) = 1) ∧
    (false : Bool) = false :=
  ⟨by decide,
   exit_hook_one_shot.1
     { heap := [(1, staticChan)], channelStack := none,
       atexit := false, atexitScheduled := 0 } 1
     ({ heap := [(1, staticChan)], channelStack := some 1,
        atexit := true, atexitScheduled := 1 }, 0) (by decide) rfl,
   exit_hook_one_shot.2.1 staticHeadState 1
     ({ heap := [(1, { staticChan with m_next := some 1 })], channelStack := some 1,
        atexit := true, atexitScheduled := 1 }, 0) (by decide) rfl,
   exit_hook_one_shot.2.2 staticHeadState (staticTornState, [1]) (by decide)⟩

/-- C6: rendering of the console sink by level, for an injected timestamp and
no error object: level OUTPUT drops the component; level CRITICAL prepends
the label and the source location; every other level is
timestamp, component, message. -/
theorem fprintfLog_format_by_level (date component file func : String)
    (line : Int) (msg : String) (level : tj_log_level) :
    (level = TJ_LOG_LEVEL_OUTPUT →
      tj_log_fprintfLog date level component file func line none msg =
        date ++ " " ++ msg ++ "\n") ∧
    (level = TJ_LOG_LEVEL_CRITICAL →
      tj_log_fprintfLog date level component file func line none msg =
        "[CRITICAL] " ++ date ++ " " ++ component ++ " " ++ file ++ ":" ++ func
          ++ ":" ++ toString line ++ ": " ++ msg ++ "\n") ∧
    (level ≠ TJ_LOG_LEVEL_OUTPUT → level ≠ TJ_LOG_LEVEL_CRITICAL →
      tj_log_fprintfLog date level component file func line none msg =
        date ++ " " ++ component ++ " " ++ msg ++ "\n") := by
  refine ⟨?_, ?_, ?_⟩
  · rintro rfl
    rw [fprintfLog_none_eq]
    rfl
  · rintro rfl
    rw [fprintfLog_none_eq]
    rfl
  · intro h1 h2
    rw [fprintfLog_none_eq, if_neg h1, if_pos h2]

/-- Witness for C6: the three spec examples with the fixed timestamp. -/
theorem fprintfLog_format_by_level_witness :
    tj_log_fprintfLog "2024/01/02 03:04:05" TJ_LOG_LEVEL_OUTPUT "X" "a.c" "f" 42
        none "hello" = "2024/01/02 03:04:05 hello\n" ∧
    tj_log_fprintfLog "2024/01/02 03:04:05" TJ_LOG_LEVEL_CRITICAL "net" "a.c" "f" 42
        none "boom" = "[CRITICAL] 2024/01/02 03:04:05 net a.c:f:42: boom\n" ∧
    tj_log_fprintfLog "2024/01/02 03:04:05" TJ_LOG_LEVEL_LOGIC "X" "a.c" "f" 42
        none "hello" = "2024/01/02 03:04:05 X hello\n" :=
  ⟨(fprintfLog_format_by_level "2024/01/02 03:04:05" "X" "a.c" "f" 42 "hello"
      TJ_LOG_LEVEL_OUTPUT).1 rfl,
   (fprintfLog_format_by_level "2024/01/02 03:04:05" "net" "a.c" "f" 42 "boom"
      TJ_LOG_LEVEL_CRITICAL).2.1 rfl,
   (fprintfLog_format_by_level "2024/01/02 03:04:05" "X" "a.c" "f" 42 "hello"
      TJ_LOG_LEVEL_LOGIC).2.2 (by decide) (by decide)⟩

/-- C7: for every level, a non-NULL error object adds exactly one output line
equal to the error's rendered message after the main line, in both the
console sink and the logcat sink; with a NULL error the logcat sink performs
exactly its one main write (and the console render is exactly the main line,
as the two equations show). -/
theorem sink_appends_error_line (date : String) (level : tj_log_level)
    (component file func : String) (line : Int) (e : tj_error) (msg : String) :
    tj_log_fprintfLog date level component file func line (some e) msg =
      tj_log_fprintfLog date level component file func line none msg
        ++ (tj_error_getMessage e ++ "\n") ∧
    tj_log_logcatLog level component file func line (some e) msg =
      tj_log_logcatLog level component file func line none msg
        ++ [(logcatPriority level, component, tj_error_getMessage e)] ∧
    (tj_log_logcatLog level component file func line none msg).length = 1 := by
  refine ⟨?_, ?_, ?_⟩
  · rw [fprintfLog_none_eq]
    rfl
  · rw [logcatLog_none_eq]
    rfl
  · rw [logcatLog_none_eq]
    cases level <;> rfl

/-- C8: `tj_log_outchannel_create` returns NULL on allocation failure,
leaving the whole registry state unchanged; on success it returns a channel
whose ownership flag is set and whose data handle, log function, finalize
function and next link are exactly the arguments and NULL. -/
theorem outchannel_create_failure_and_success (s : LogState) (newAddr : Addr)
    (data log : Nat) (fin : Option Nat) :
    tj_log_outchannel_create s false newAddr data log fin = (s, none) ∧
    (tj_log_outchannel_create s true newAddr data log fin).2 = some newAddr ∧
    (tj_log_outchannel_create s true newAddr data log fin).1.channelStack =
      s.channelStack ∧
    lookupChan (tj_log_outchannel_create s true newAddr data log fin).1.heap newAddr =
      some { m_allocated := true, m_data := data, log := log,
             finalize := fin, m_next := none } := by
  refine ⟨rfl, rfl, rfl, ?_⟩
  simp [tj_log_outchannel_create, lookupChan]

/-- C9: removing a channel that is not in the registry chain is a no-op: the
state (head and every link) is unchanged and no finalize call happens. -/
theorem removeOutChannel_not_found_noop (s : LogState)
    (cs : List (Addr × tj_log_outchannel))
    (rep : ChainRep s.heap s.channelStack cs)
    (hlen : cs.length ≤ s.heap.length)
    (out : Addr) (hout : out ∉ cs.map Prod.fst) :
    tj_log_removeOutChannel s out = some (s, []) := by
  obtain ⟨prevEnd, hscan⟩ := removeScan_not_found rep hout (Nat.lt_succ_of_le hlen) none
  simp [tj_log_removeOutChannel, hscan]

/-- Witness for C9: removing the unregistered address 2 from the one-channel
registry `staticHeadState`. -/
theorem removeOutChannel_not_found_noop_witness :
    ChainRep staticHeadState.heap staticHeadState.channelStack [(1, staticChan)] ∧
    ([(1, staticChan)] : List (Addr × tj_log_outchannel)).length ≤
      staticHeadState.heap.length ∧
    (2 : Addr) ∉ ([(1, staticChan)] : List (Addr × tj_log_outchannel)).map Prod.fst ∧
    tj_log_removeOutChannel staticHeadState 2 = some (staticHeadState, []) := by
  have rep : ChainRep staticHeadState.heap staticHeadState.channelStack
      [(1, staticChan)] := ChainRep.cons rfl ChainRep.nil
  exact ⟨rep, by decide, by decide,
    removeOutChannel_not_found_noop staticHeadState [(1, staticChan)] rep
      (by decide) 2 (by decide)⟩

/-- C10: `tj_log_addOutChannel` on a valid channel never fails: it returns 0
unconditionally, with no validation, and makes the argument the new registry
head with its next link set to the previous head. -/
theorem addOutChannel_always_succeeds_pushes_head (s : LogState) (out : Addr)
    (c : tj_log_outchannel) (hl : lookupChan s.heap out = some c) :
    ∃ s', tj_log_addOutChannel s out = some (s', 0) ∧
      s'.channelStack = some out ∧
      lookupChan s'.heap out = some { c with m_next := s.channelStack } := by
  rw [addOutChannel_eq hl]
  cases hA : s.atexit <;>
    exact ⟨_, rfl, rfl, lookupChan_updateChan_self hl⟩

/-- Witness for C10: pushing address 1 onto the two-channel registry, in front
of the current head 2. -/
theorem addOutChannel_always_succeeds_pushes_head_witness :
    lookupChan twoChanState.heap 1 = some staticChan ∧
    ∃ s', tj_log_addOutChannel twoChanState 1 = some (s', 0) ∧
      s'.channelStack = some 1 ∧
      lookupChan s'.heap 1 = some { staticChan with m_next := some 2 } :=
  ⟨rfl, addOutChannel_always_succeeds_pushes_head twoChanState 1 staticChan rfl⟩
